import Mathlib

/-!
# Verification development for `fstat` (v2.6.11, `fstat.go`)

A shallow embedding of the filter → sort → aggregate → render pipeline of
`fstat.go`.  Conventions used throughout:

* Machine integers (`int64`, `int`) are modelled as `Int`; Go's `/` on
  integers truncates toward zero and is modelled by `Int.tdiv`.
* Instants (`time.Time`) are modelled as `Int` nanoseconds since the Unix
  epoch.  The local time zone is modelled as a fixed UTC offset `o` in
  seconds (`-86400 < o < 86400`); converting an instant to local civil
  time adds `o` and performs calendar arithmetic.
* Go strings compare bytewise; on UTF-8 data this is the same as
  lexicographic comparison of code points, modelled on `String.data`.
* External collaborators (`os.Lstat`, the regexp engine, the tablewriter
  and the terminal width probe) are passed in as data or as function
  parameters; everything written in `fstat.go` itself is translated.
* A fatal `os.Exit(c)` is modelled by the `GoResult.exit c` constructor.
-/

namespace Fstat

/-- Result of a Go code path that can call `os.Exit`. -/
inductive GoResult (α : Type) where
  | exit (code : Nat)
  | ok (val : α)
deriving DecidableEq, Repr

/-! ## Go string comparison -/

/-- Bytewise-lexicographic comparison of Go strings, on the character
lists of the two strings (UTF-8 byte order coincides with code-point
order). `charsLt a b = true` iff `a < b` in Go. -/
def charsLt : List Char → List Char → Bool
  | _, [] => false
  | [], _ :: _ => true
  | a :: as, b :: bs =>
    if a.toNat < b.toNat then true
    else if b.toNat < a.toNat then false
    else charsLt as bs

/-- Go's `string <` operator. -/
def goStrLt (a b : String) : Bool := charsLt a.data b.data

/-! ## Calendar arithmetic (models the `time` package's proleptic Gregorian calendar) -/

/-- Days from the Unix epoch (1970-01-01) to civil date `(y, m, d)`
(Howard Hinnant's `days_from_civil` algorithm). -/
def daysFromCivil (y m d : Int) : Int :=
  let yAdj : Int := if m ≤ 2 then y - 1 else y
  let era : Int := (if 0 ≤ yAdj then yAdj else yAdj - 399) / 400
  let yoe : Int := yAdj - era * 400
  let mp : Int := (m + 9) % 12
  let doy : Int := (153 * mp + 2) / 5 + d - 1
  let doe : Int := yoe * 365 + yoe / 4 - yoe / 100 + doy
  era * 146097 + doe - 719468

/-- Civil date `(y, m, d)` of a day number counted from the Unix epoch
(Howard Hinnant's `civil_from_days` algorithm). -/
def civilFromDays (z : Int) : Int × Int × Int :=
  let z' : Int := z + 719468
  let era : Int := (if 0 ≤ z' then z' else z' - 146096) / 146097
  let doe : Int := z' - era * 146097
  let yoe : Int := (doe - doe / 1460 + doe / 36524 - doe / 146096) / 365
  let y : Int := yoe + era * 400
  let doy : Int := doe - (365 * yoe + yoe / 4 - yoe / 100)
  let mp : Int := (5 * doy + 2) / 153
  let d : Int := doy - (153 * mp + 2) / 5 + 1
  let m : Int := mp + (if mp < 10 then 3 else -9)
  (if m ≤ 2 then y + 1 else y, m, d)

def isLeapYear (y : Int) : Bool := y % 4 == 0 && (y % 100 != 0 || y % 400 == 0)

def daysInMonth (y m : Int) : Int :=
  if m == 2 then (if isLeapYear y then 29 else 28)
  else if m == 4 || m == 6 || m == 9 || m == 11 then 30
  else 31

/-- The instant (ns since the Unix epoch, UTC) whose *local* civil
reading under fixed offset `o` seconds is `y-m-d h:mi:s` plus `ns`
nanoseconds.  (Mirrors Go's `time.Date(y, m, d, h, mi, s, ns, Local)`.) -/
def localNs (o y m d h mi s ns : Int) : Int :=
  (daysFromCivil y m d * 86400 + h * 3600 + mi * 60 + s - o) * 1000000000 + ns

/-! ## Date parsing (`time.Parse` with layout `"20060102"`, `dateFormat`) -/

def digitVal (c : Char) : Option Nat :=
  if 48 ≤ c.toNat && c.toNat ≤ 57 then some (c.toNat - 48) else none

def parseDigits (cs : List Char) : Option Nat :=
  cs.foldl (fun acc c =>
    match acc, digitVal c with
    | some n, some d => some (n * 10 + d)
    | _, _ => none) (some 0)

/-- `time.Parse("20060102", s)`: exactly eight digits `YYYYMMDD`; the
month must be 1–12 and the day valid for that month, otherwise Go
reports a parse error (modelled as `none`). -/
def goParseDate8 (s : String) : Option (Int × Int × Int) :=
  match s.data with
  | [y1, y2, y3, y4, m1, m2, d1, d2] =>
    match parseDigits [y1, y2, y3, y4], parseDigits [m1, m2], parseDigits [d1, d2] with
    | some y, some m, some d =>
      if 1 ≤ m && m ≤ 12 && 1 ≤ d && (d : Int) ≤ daysInMonth (y : Int) (m : Int) then
        some ((y : Int), (m : Int), (d : Int))
      else none
    | _, _, _ => none
  | _ => none

/-! ## `roundToLocalTime` (fstat.go:601-623) -/

/-- `wantOlder`/`wantNewer` iota constants (fstat.go:465-468). -/
def wantOlder : Nat := 0

def wantNewer : Nat := 1

/-- `roundToLocalTime(olderOrNewer, modTime)` under local offset `o`:
parse `modTime` as `YYYYMMDD` (exit code 5 on failure), view the
resulting UTC midnight in the local zone, set the clock to
23:59:59.999999999 of that local calendar day, and for `wantOlder` add a
further 24 hours.  Returns the bound as ns since the epoch. -/
def roundToLocalTime (o : Int) (olderOrNewer : Nat) (modTime : String) : GoResult Int :=
  match goParseDate8 modTime with
  | none => .exit 5
  | some (y, m, d) =>
    let localDay : Int := (daysFromCivil y m d * 86400 + o) / 86400
    let c := civilFromDays localDay
    let base : Int := (daysFromCivil c.1 c.2.1 c.2.2 * 86400 + 86399 - o) * 1000000000 + 999999999
    .ok (if olderOrNewer = wantOlder then base + 86400 * 1000000000 else base)

/-! ## Data model -/

/-- `FileStat` struct (fstat.go:472-477). -/
structure FileStat where
  FullName : String
  Size : Int
  ModTime : Int
  FileType : String
deriving DecidableEq, Repr

/-- Result of a successful `os.Lstat` call, the black-box stat
collaborator: size, modification instant, and mode predicates. -/
structure StatInfo where
  size : Int
  modTimeNs : Int
  isRegular : Bool
  isDir : Bool
  isSymlink : Bool
deriving DecidableEq, Repr

/-- The `ftype` classification chain in `GetFileInfo` (fstat.go:722-729). -/
def ftypeOf (f : StatInfo) : String :=
  if f.isRegular then "F"
  else if f.isDir then "D"
  else if f.isSymlink then "L"
  else "?"

/-! ## Sorting (`sortSize`, fstat.go:499-510) -/

/-- The `sort.Slice` comparator body of `sortSize`. -/
def sizeLess (ascending : Bool) (a b : FileStat) : Bool :=
  if a.Size > b.Size then !ascending
  else if a.Size < b.Size then ascending
  else goStrLt a.FullName b.FullName

/-- The non-strict order induced by the `sortSize` comparator:
`a` may precede `b` iff the comparator does not demand `b` before `a`. -/
def sizeLe (ascending : Bool) (a b : FileStat) : Prop :=
  sizeLess ascending b a = false

instance (ascending : Bool) : DecidableRel (sizeLe ascending) :=
  fun a b => by unfold sizeLe; infer_instance

/-- `sortSize` (fstat.go:499-510).  Go's `sort.Slice` is an unspecified
(unstable) sort w.r.t. the comparator; whenever the comparator is
antisymmetric on the input (the theorems below assume distinct
`FullName`s) the sorted permutation is unique, so any correct sorting
algorithm is a faithful model — we use insertion sort. -/
def sortSize (entry : List FileStat) (ascending : Bool) : List FileStat :=
  List.insertionSort (sizeLe ascending) entry

/-! ## Entry collection and filtering (`GetFileInfo`, fstat.go:651-744) -/

/-- `path.Base` (Go standard library), returned as a character list:
empty path gives `"."`, trailing slashes are removed, everything up to
the final slash is dropped, an all-slash path gives `"/"`. -/
def pathBase (s : String) : List Char :=
  if s.data = [] then ['.']
  else
    let t := (s.data.reverse.dropWhile (fun c => c == '/')).reverse
    if t = [] then ['/']
    else (t.reverse.takeWhile (fun c => !(c == '/'))).reverse

/-- `strings.Contains(fname, pathSepDot)` with `pathSepDot = "/."`
(fstat.go:691). -/
def containsSlashDot : List Char → Bool
  | '/' :: '.' :: _ => true
  | _ :: rest => containsSlashDot rest
  | [] => false

/-- The `-ed` dot-exclusion test (fstat.go:694):
`"." == path.Base(fname)[:1] || strings.Contains(fname, pathSepDot)`. -/
def dotFileRejected (fname : String) : Bool :=
  (match pathBase fname with
   | c :: _ => c == '.'
   | [] => false) || containsSlashDot fname.data

/-- The per-path body of `GetFileInfo`'s loop (fstat.go:692-742).
`exm`/`inm` are the compiled exclude/include matchers (if any),
`newer`/`older` the precomputed date bounds (ns), and `stat` the
`os.Lstat` outcome (`none` = error, path skipped). -/
def keepOne (exm inm : Option (String → Bool)) (newer older : Option Int)
    (excludeDot : Bool) (sizeSmaller sizeLarger : Int)
    (fname : String) (stat : Option StatInfo) : Option FileStat :=
  if excludeDot && dotFileRejected fname then none
  else if (match exm with | some m => m fname | none => false) then none
  else if (match inm with | some m => !(m fname) | none => false) then none
  else
    match stat with
    | none => none
    | some f =>
      if (match older with | some b => decide (f.modTimeNs > b) | none => false) then none
      else if (match newer with | some b => decide (f.modTimeNs < b) | none => false) then none
      else
        let ftype := ftypeOf f
        if decide (sizeSmaller > 0) && decide (f.size > sizeSmaller) && (ftype == "F") then none
        else if decide (sizeLarger > 0) && decide (f.size < sizeLarger) && (ftype == "F") then none
        else some ⟨fname, f.size, f.modTimeNs, ftype⟩

/-- `GetFileInfo` (fstat.go:651-744).  `compile` models
`regexp.Compile` (`none` = compile error); `files` pairs each input
file name with its `os.Lstat` outcome; `quiet` only suppresses stderr
reporting and does not influence the result value. -/
def GetFileInfo (compile : String → Option (String → Bool)) (o : Int)
    (files : List (String × Option StatInfo)) (quiet excludeDot : Bool)
    (excludeRE includeRE dateNewer dateOlder : String)
    (sizeSmaller sizeLarger : Int) : GoResult (List FileStat) :=
  let _ := quiet
  let exmR : GoResult (Option (String → Bool)) :=
    if excludeRE.length > 0 then
      match compile excludeRE with
      | none => .exit 3
      | some m => .ok (some m)
    else .ok none
  match exmR with
  | .exit c => .exit c
  | .ok exm =>
    let inmR : GoResult (Option (String → Bool)) :=
      if includeRE.length > 0 then
        match compile includeRE with
        | none => .exit 4
        | some m => .ok (some m)
      else .ok none
    match inmR with
    | .exit c => .exit c
    | .ok inm =>
      let newerR : GoResult (Option Int) :=
        if dateNewer.length > 0 then
          match roundToLocalTime o wantNewer dateNewer with
          | .exit c => .exit c
          | .ok b => .ok (some b)
        else .ok none
      match newerR with
      | .exit c => .exit c
      | .ok newer =>
        let olderR : GoResult (Option Int) :=
          if dateOlder.length > 0 then
            match roundToLocalTime o wantOlder dateOlder with
            | .exit c => .exit c
            | .ok b => .ok (some b)
          else .ok none
        match olderR with
        | .exit c => .exit c
        | .ok older =>
          .ok (files.filterMap (fun p =>
            keepOne exm inm newer older excludeDot sizeSmaller sizeLarger p.1 p.2))

/-! ## Size formatting (`RenderAllEntries` loop, fstat.go:803-810) -/

/-- Split decimal digits (most significant first) into comma groups of
three, counted from the right. -/
def chunksOf3 : List Char → List (List Char)
  | [] => []
  | a :: b :: c :: rest => [a, b, c] :: chunksOf3 rest
  | short => [short]

/-- Comma-group the decimal representation of a natural number. -/
def commaGroup (n : Nat) : String :=
  let cs := Nat.toDigits 10 n
  let headLen := (cs.length - 1) % 3 + 1
  String.mk (List.intercalate [','] (cs.take headLen :: chunksOf3 (cs.drop headLen)))

/-- Modelled from the spec: `RenderInteger("#,###.", v)` is defined in
`render_number.go`, which is absent from `src/`; per the spec, size
formatting "optionally inserts thousands separators", i.e. the decimal
digits are grouped in threes with commas. -/
def RenderIntegerCommas (n : Int) : String :=
  if n < 0 then "-" ++ commaGroup n.natAbs else commaGroup n.natAbs

/-- The per-entry size column (fstat.go:803-810): the size is first
divided by 1048576 when MiB output is requested (Go `int64` division,
truncation toward zero), and the result is then either comma-grouped or
printed with `%d`. -/
def sizeCell (convertToMiB addCommas : Bool) (size : Int) : String :=
  let size := if convertToMiB then size.tdiv 1048576 else size
  if addCommas then RenderIntegerCommas size else toString size

/-- The totals size cell (fstat.go:823-831): same shape — the running
total is divided by 1048576 first when MiB output is requested, then
comma-grouped when requested. -/
def totalsSizeCell (convertToMiB addCommas : Bool) (totalFileSize : Int) : String :=
  let totalFileSize := if convertToMiB then totalFileSize.tdiv 1048576 else totalFileSize
  if addCommas then RenderIntegerCommas totalFileSize else toString totalFileSize

/-! ## Time formatting -/

/-- Zero-pad to two digits (for `n` in 0–99). -/
def pad2 (n : Int) : String :=
  if n < 10 then "0" ++ toString n else toString n

/-- Zero-pad a year to four digits (Go formats years 0–9999 this way). -/
def pad4 (n : Int) : String :=
  if n < 0 then toString n
  else if n < 10 then "000" ++ toString n
  else if n < 100 then "00" ++ toString n
  else if n < 1000 then "0" ++ toString n
  else toString n

/-- The first 19 bytes of Go's `time.Time.String()` under fixed local
offset `o`: the local civil time as `YYYY-MM-DD hh:mm:ss`
(`fmt.Sprintf("%s", e.ModTime)[:19]`, fstat.go:817).  The `-M`
millisecond branch (fstat.go:811-815) is not modelled; no claim
involves it. -/
def formatDateTime19 (o : Int) (tNs : Int) : String :=
  let total := tNs / 1000000000 + o
  let days := total / 86400
  let tod := total % 86400
  let c := civilFromDays days
  pad4 c.1 ++ "-" ++ pad2 c.2.1 ++ "-" ++ pad2 c.2.2 ++ " " ++
    pad2 (tod / 3600) ++ ":" ++ pad2 (tod % 3600 / 60) ++ ":" ++ pad2 (tod % 60)

/-! ## Row building (`RenderAllEntries`, fstat.go:771-862) -/

/-- The `-if`/`-id`/`-il` skip tests at the top of the render loop
(fstat.go:782-790). -/
def passesOnly (onlyFiles onlyDirs onlyLinks : Bool) (e : FileStat) : Bool :=
  !(onlyFiles && !(e.FileType == "F")) &&
  !(onlyDirs && !(e.FileType == "D")) &&
  !(onlyLinks && !(e.FileType == "L"))

/-- The totals accumulators of the render loop (fstat.go:791-801), over
the entries that survive the `only` filters: total size of files, file
count, directory count, symlink count. -/
def totalsCounters (entries : List FileStat) : Int × Int × Int × Int :=
  entries.foldl (fun acc e =>
    (acc.1 + (if e.FileType == "F" then e.Size else 0),
     acc.2.1 + (if e.FileType == "F" then 1 else 0),
     acc.2.2.1 + (if e.FileType == "D" then 1 else 0),
     acc.2.2.2 + (if e.FileType == "L" then 1 else 0))) (0, 0, 0, 0)

/-- `averageFileSize` (fstat.go:834-837): Go computes
`float64(totalFileSize / totalFileCount)` — an integer (`int64`)
division whose exact value is then carried by the float; modelled as
the truncating division itself. Zero when there are no files. -/
def averageFileSize (totalFileSize totalFileCount : Int) : Int :=
  if 0 < totalFileCount then totalFileSize.tdiv totalFileCount else 0

/-- `averageFilesPerDir` (fstat.go:839-842): integer division
`totalFileCount / totalDirCount`, zero unless both counts are
positive. -/
def averageFilesPerDir (totalFileCount totalDirCount : Int) : Int :=
  if 0 < totalFileCount ∧ 0 < totalDirCount then totalFileCount.tdiv totalDirCount else 0

/-- One data row of the output (fstat.go:803-820):
`{modtime, fsize, filetype, fullname}`. -/
def rowOf (o : Int) (addCommas convertToMiB : Bool) (e : FileStat) : List String :=
  [formatDateTime19 o e.ModTime, sizeCell convertToMiB addCommas e.Size,
   e.FileType, e.FullName]

/-- The synthetic totals rows (fstat.go:823-861).  The
`len(allRows) > 0` guard on the average-size row always holds there
because the total-size row has just been appended. -/
def totalsRows (addCommas convertToMiB : Bool) (c : Int × Int × Int × Int) :
    List (List String) :=
  let tFiles := c.2.1
  let tDirs := c.2.2.1
  let tLinks := c.2.2.2
  let totalAfterMiB := if convertToMiB then c.1.tdiv 1048576 else c.1
  let tsize := totalsSizeCell convertToMiB addCommas c.1
  let afs := averageFileSize totalAfterMiB tFiles
  let afd := averageFilesPerDir tFiles tDirs
  let asize := if addCommas then RenderIntegerCommas afs else toString afs
  let dsize := if addCommas then RenderIntegerCommas afd else toString afd
  [["", tsize, " ", "  (total size for " ++ toString tFiles ++ " files)"],
   ["", asize, " ", "(average size for " ++ toString tFiles ++ " files)"]] ++
  (if decide (0 < tDirs) then [["", toString tDirs, " ", "(num of directories)"]] else []) ++
  (if decide (0 < afd) then [["", dsize, " ", "(average num of files per directory)"]] else []) ++
  (if decide (0 < tLinks) then [["", toString tLinks, " ", "(num of sym links)"]] else [])

/-- `allRows` as assembled by `RenderAllEntries` before format dispatch
(fstat.go:771-862): the render loop's skip/format steps are the filter
and map below, and the totals block appends its synthetic rows. -/
def buildAllRows (o : Int) (addCommas convertToMiB includeTotals onlyFiles onlyDirs onlyLinks : Bool)
    (entries : List FileStat) : List (List String) :=
  let kept := entries.filter (passesOnly onlyFiles onlyDirs onlyLinks)
  let dataRows := kept.map (rowOf o addCommas convertToMiB)
  if includeTotals then dataRows ++ totalsRows addCommas convertToMiB (totalsCounters kept)
  else dataRows

/-! ## Output formats (fstat.go:864-934) -/

def headerRow : List String := ["Mod Time", "Size", "Type", "Name"]

/-- CSV output (fstat.go:866-872): a quoted, comma-joined header line,
then one quoted line per row. -/
def csvRender (rows : List (List String)) : String :=
  let line := fun (r : List String) => "\"" ++ String.intercalate "\",\"" r ++ "\"\n"
  line headerRow ++ String.join (rows.map line)

/-- HTML output (fstat.go:874-889): a fixed document skeleton with one
`<tr>` per row and no escaping of field content. -/
def htmlRender (rows : List (List String)) : String :=
  "<!DOCTYPE html>\n<html>\n<body>\n" ++
  "<table border=\x271\x27 cellpadding=\x273\x27 cellspacing=\x273\x27>\n" ++
  "<th>" ++ String.intercalate "</th><th>" headerRow ++ "</th>\n" ++
  String.join (rows.map (fun r =>
    "<tr>\n\t<td>" ++ String.intercalate "</td><td>" r ++ "</td>\n</tr>\n")) ++
  "</table>\n</body>\n</html>\n"

def hexDigitChar (n : Nat) : String :=
  String.singleton (if n < 10 then Char.ofNat (48 + n) else Char.ofNat (87 + n))

/-- Go `encoding/json` string escaping (with its default HTML escaping
of `<`, `>`, `&`). -/
def jsonEscapeChar (c : Char) : String :=
  if c == '"' then "\\\""
  else if c == '\\' then "\\\\"
  else if c == '\n' then "\\n"
  else if c == '\r' then "\\r"
  else if c == '\t' then "\\t"
  else if c == '<' then "\\u003c"
  else if c == '>' then "\\u003e"
  else if c == '&' then "\\u0026"
  else if c.toNat < 32 then "\\u00" ++ hexDigitChar (c.toNat / 16) ++ hexDigitChar (c.toNat % 16)
  else if c.toNat == 8232 then "\\u2028"
  else if c.toNat == 8233 then "\\u2029"
  else String.singleton c

def jsonQuote (s : String) : String :=
  "\"" ++ String.join (s.data.map jsonEscapeChar) ++ "\""

/-- `json.MarshalIndent` of one `[]string` row (prefix `""`, indent four
spaces, one nesting level down).  An empty row models a nil slice,
which Go marshals as `null`. -/
def marshalRow (r : List String) : String :=
  match r with
  | [] => "null"
  | _ => "    [\n" ++
      String.intercalate ",\n" (r.map (fun cell => "        " ++ jsonQuote cell)) ++
      "\n    ]"

/-- `json.MarshalIndent(allRows, "", "    ")` (fstat.go:907): a nil
(empty) row slice marshals as `null`; otherwise a pretty-printed array
of arrays of strings. -/
def marshalRows (rows : List (List String)) : String :=
  match rows with
  | [] => "null"
  | _ => "[\n" ++ String.intercalate ",\n" (rows.map marshalRow) ++ "\n]"

/-- Success test of `time.Parse("2006-01-02 15:04:05", s)`: exactly the
19-byte layout with in-range fields. -/
def goParseOk19 (s : String) : Bool :=
  match s.data with
  | [y1, y2, y3, y4, s1, a1, a2, s2, b1, b2, s3, h1, h2, s4, i1, i2, s5, c1, c2] =>
    (s1 == '-') && (s2 == '-') && (s3 == ' ') && (s4 == ':') && (s5 == ':') &&
    (match parseDigits [y1, y2, y3, y4], parseDigits [a1, a2], parseDigits [b1, b2],
           parseDigits [h1, h2], parseDigits [i1, i2], parseDigits [c1, c2] with
     | some y, some mo, some dy, some hh, some mi, some ss =>
       (1 ≤ mo && mo ≤ 12) && (1 ≤ dy && (dy : Int) ≤ daysInMonth (y : Int) (mo : Int)) &&
       (hh ≤ 23) && (mi ≤ 59) && (ss ≤ 59)
     | _, _, _, _, _, _ => false)
  | _ => false

/-- JSON output (fstat.go:891-911).  The loop re-parses each row's
mod-time column with `time.Parse` (exiting with code 1 on failure,
modelled as `none`) into a `jsonRows` slice that is never used; the
marshalled value is `allRows` itself, followed by `Println`'s
newline. -/
def jsonRender (rows : List (List String)) : Option String :=
  if rows.all (fun r => goParseOk19 (r.getD 0 "")) then
    some (marshalRows rows ++ "\n")
  else none

/-! ## Default tabular output (fstat.go:913-934) -/

def minTermWidth : Int := 49

/-- `shortenFileName` (fstat.go:481-491): `make([][]string, len(allRows))`
creates a slice already holding `len(allRows)` nil rows, and the loop
then *appends* each processed row after them, so the result is the nil
rows followed by the rows with column 3 shortened.  `shorten` models
`ellipsis.Shorten` (external package). -/
def shortenFileName (shorten : String → Int → String) (allRows : List (List String))
    (maxWidth : Int) : List (List String) :=
  List.replicate allRows.length [] ++
    allRows.map (fun row => row.set 3 (shorten (row.getD 3 "") maxWidth))

/-- The `maxWidth` computation of the default branch (fstat.go:915-924);
`termWidth` models `termsize.Width()`. -/
def defaultMaxWidth (termWidth : Int) (longFileNames : Bool) (longWidth : Int) : Int :=
  if longFileNames then 3000
  else
    let mw := termWidth - minTermWidth
    let mw := if 0 < longWidth then longWidth - minTermWidth + 2 else mw
    if mw < minTermWidth then minTermWidth else mw

/-- The default tabular branch (fstat.go:913-934): nothing at all is
written when `allRows` is empty; otherwise the rows are passed through
`shortenFileName` and handed to the external tablewriter, modelled by
`tableRender`. -/
def defaultRender (tableRender : List (List String) → String)
    (shorten : String → Int → String) (termWidth : Int)
    (longFileNames : Bool) (longWidth : Int) (rows : List (List String)) : String :=
  if 0 < rows.length then
    tableRender (shortenFileName shorten rows (defaultMaxWidth termWidth longFileNames longWidth))
  else ""

/-- `RenderAllEntries` (fstat.go:771-935): build `allRows`, then
dispatch on the selected output format.  The returned string is what is
written to stdout; `none` models the fatal exit inside the JSON
branch. -/
def RenderAllEntries (tableRender : List (List String) → String)
    (shorten : String → Int → String) (termWidth o : Int)
    (entries : List FileStat)
    (addCommas convertToMiB includeTotals onlyFiles onlyDirs onlyLinks : Bool)
    (outputCSV outputHTML outputJSON longFileNames : Bool) (longWidth : Int) :
    Option String :=
  let allRows := buildAllRows o addCommas convertToMiB includeTotals onlyFiles onlyDirs onlyLinks entries
  if outputCSV then some (csvRender allRows)
  else if outputHTML then some (htmlRender allRows)
  else if outputJSON then jsonRender allRows
  else some (defaultRender tableRender shorten termWidth longFileNames longWidth allRows)

/-! ## Argument validation (`ValidateArgs`, fstat.go:942-1044) -/

/-- The parameters of `ValidateArgs`, with the Go parameter names. -/
structure Args where
  argsSortSize : Bool
  argsSortSizeDesc : Bool
  argsSortModTime : Bool
  argsSortModTimeDesc : Bool
  argsSortName : Bool
  argsSortNameDesc : Bool
  argsSortNameCaseInsen : Bool
  argsSortNameCaseInsenDesc : Bool
  argsOnlyFiles : Bool
  argsOnlyDirs : Bool
  argsOnlyLinks : Bool
  argsTotals : Bool
  argsOutputCSV : Bool
  argsOutputHTML : Bool
  argsOutputJSON : Bool
  dateOlder : String
  dateNewer : String
  sizeSmaller : Int
  sizeLarger : Int
  longFileNames : Bool
  longWidth : Int
deriving DecidableEq, Repr

/-- The sort-flag counter (fstat.go:943-967). -/
def sortArgCount (a : Args) : Nat :=
  (if a.argsSortSize then 1 else 0) + (if a.argsSortSizeDesc then 1 else 0) +
  (if a.argsSortModTime then 1 else 0) + (if a.argsSortModTimeDesc then 1 else 0) +
  (if a.argsSortName then 1 else 0) + (if a.argsSortNameDesc then 1 else 0) +
  (if a.argsSortNameCaseInsen then 1 else 0) + (if a.argsSortNameCaseInsenDesc then 1 else 0)

/-- The `only`-flag counter (fstat.go:974-983). -/
def onlyArgCount (a : Args) : Nat :=
  (if a.argsOnlyFiles then 1 else 0) + (if a.argsOnlyDirs then 1 else 0) +
  (if a.argsOnlyLinks then 1 else 0)

/-- The output-flag counter (fstat.go:990-999). -/
def outputArgCount (a : Args) : Nat :=
  (if a.argsOutputCSV then 1 else 0) + (if a.argsOutputHTML then 1 else 0) +
  (if a.argsOutputJSON then 1 else 0)

/-- The `-do`/`-dn` range check (fstat.go:1011-1031): only performed
when both dates are given; parse failures and an inverted range all
exit with code 2.  `older.After(newer)` compares the two parsed UTC
midnights, i.e. the day numbers. -/
def dateRangeCheck (a : Args) : Option Nat :=
  if a.dateOlder.length > 0 && a.dateNewer.length > 0 then
    match goParseDate8 a.dateOlder with
    | none => some 2
    | some od =>
      match goParseDate8 a.dateNewer with
      | none => some 2
      | some nd =>
        if daysFromCivil od.1 od.2.1 od.2.2 > daysFromCivil nd.1 nd.2.1 nd.2.2 then some 2
        else none
  else none

/-- `ValidateArgs` (fstat.go:942-1044): `some c` models `os.Exit(c)`,
`none` means validation passed. -/
def ValidateArgs (a : Args) : Option Nat :=
  if sortArgCount a > 1 then some 2
  else if onlyArgCount a > 1 then some 2
  else if outputArgCount a > 1 then some 2
  else if a.argsTotals && (a.argsOutputCSV || a.argsOutputHTML || a.argsOutputJSON) then some 2
  else
    match dateRangeCheck a with
    | some c => some c
    | none =>
      if decide (a.sizeSmaller > 0) && decide (a.sizeSmaller < a.sizeLarger) then some 2
      else if a.longFileNames && decide (a.longWidth > 0) then some 2
      else none

/-! ## `main`'s control flow around the pipeline (fstat.go:1089-1225) -/

/-- `main` calls `ValidateArgs` before reading any input or writing any
byte to stdout (fstat.go:1152); on a validation failure the process
exits with the validation code and stdout is empty.  `pipelineOut`
stands for whatever the rest of the pipeline would print. -/
def mainAfterValidate (a : Args) (pipelineOut : String) : String × Option Nat :=
  match ValidateArgs a with
  | some c => ("", some c)
  | none => (pipelineOut, none)

/-- The `-f` glob check (fstat.go:1191-1194): no glob match is fatal
with exit code 3. -/
def globMatchCheck (allFilenames : List String) : Option Nat :=
  if allFilenames.length = 0 then some 3 else none

/-- The empty-input-list check (fstat.go:1216-1219): an empty file list
from a file or stdin is fatal with exit code 3. -/
def inputListCheck (allFilenames : List String) : Option Nat :=
  if allFilenames.length = 0 then some 3 else none

/-- `main` runs `GetFileInfo` before `RenderAllEntries`
(fstat.go:1222-1224): a fatal exit inside `GetFileInfo` therefore
happens with nothing yet written to stdout. -/
def pipelineStdout (collected : GoResult (List FileStat))
    (render : List FileStat → String) : String × Option Nat :=
  match collected with
  | .exit c => ("", some c)
  | .ok es => (render es, none)

/-! ## Spec-side comparison definitions -/

/-- The size filter as worded by the spec (§4.1): "applies only to
entries of type File; a file is rejected if its size exceeds the
'smaller' bound or is less than the 'larger' bound when that bound is
set (> 0). Zero/unset bound disables that check."  `true` = the entry
passes the size filter. -/
def sizeFilterSpec (sizeSmaller sizeLarger size : Int) (ftype : String) : Bool :=
  (ftype != "F") ||
    ((decide (sizeSmaller ≤ 0) || decide (size ≤ sizeSmaller)) &&
     (decide (sizeLarger ≤ 0) || decide (sizeLarger ≤ size)))

/-- Go `time.Time.MarshalJSON` (RFC 3339, sub-second digits trimmed,
`Z` for a zero offset) under fixed local offset `o` — used only to
exhibit what *typed* JSON output of an entry would contain, for
comparison with the string-column marshalling the code performs. -/
def rfc3339 (o : Int) (tNs : Int) : String :=
  let total := tNs / 1000000000 + o
  let days := total / 86400
  let tod := total % 86400
  let frac := tNs % 1000000000
  let c := civilFromDays days
  let nineDigits := (toString (frac + 1000000000)).data.drop 1
  let fracStr :=
    if frac == 0 then ""
    else "." ++ String.mk (nineDigits.reverse.dropWhile (fun c => c == '0')).reverse
  let offStr :=
    if o == 0 then "Z"
    else (if o < 0 then "-" else "+") ++ pad2 (o.natAbs / 3600) ++ ":" ++ pad2 (o.natAbs % 3600 / 60)
  pad4 c.1 ++ "-" ++ pad2 c.2.1 ++ "-" ++ pad2 c.2.2 ++ "T" ++
    pad2 (tod / 3600) ++ ":" ++ pad2 (tod % 3600 / 60) ++ ":" ++ pad2 (tod % 60) ++
    fracStr ++ offStr

/-- What `json.MarshalIndent` would produce for one *typed* `FileStat`
value, using the struct's json tags (`fullname`, `size`, `modtime`,
`filetype`, fstat.go:472-477): an object whose `size` is a bare JSON
number and whose `modtime` is an RFC 3339 string.  The code does not do
this; the definition exists to contrast with `marshalRows`. -/
def typedEntryJson (o : Int) (e : FileStat) : String :=
  "    \x7b\n        \"fullname\": " ++ jsonQuote e.FullName ++
  ",\n        \"size\": " ++ toString e.Size ++
  ",\n        \"modtime\": " ++ jsonQuote (rfc3339 o e.ModTime) ++
  ",\n        \"filetype\": " ++ jsonQuote e.FileType ++ "\n    \x7d"

/-- Typed `json.MarshalIndent` of a `FileStat` slice (the road not
taken by fstat.go:907, which marshals `allRows` instead). -/
def typedMarshal (o : Int) (entries : List FileStat) : String :=
  match entries with
  | [] => "null"
  | _ => "[\n" ++ String.intercalate ",\n" (entries.map (typedEntryJson o)) ++ "\n]"

/-! ## Order-theoretic facts about the Go string comparison -/

theorem charsLt_irrefl : ∀ a : List Char, charsLt a a = false
  | [] => rfl
  | c :: cs => by simp [charsLt, charsLt_irrefl cs]

theorem charsLt_trans : ∀ {a b c : List Char},
    charsLt a b = true → charsLt b c = true → charsLt a c = true := by
  intro a
  induction a with
  | nil =>
    intro b c h1 h2
    cases b with
    | nil => simp [charsLt] at h1
    | cons q qs =>
      cases c with
      | nil => simp [charsLt] at h2
      | cons r rs => simp [charsLt]
  | cons p ps ih =>
    intro b c h1 h2
    cases b with
    | nil => simp [charsLt] at h1
    | cons q qs =>
      cases c with
      | nil => simp [charsLt] at h2
      | cons r rs =>
        simp only [charsLt] at h1 h2 ⊢
        split_ifs at h1 h2 ⊢ <;>
          first
          | rfl
          | omega
          | exact ih h1 h2
          | exact absurd h1 (by decide)
          | exact absurd h2 (by decide)

theorem charsLt_le_trans : ∀ {a b c : List Char},
    charsLt b a = false → charsLt c b = false → charsLt c a = false := by
  intro a
  induction a with
  | nil =>
    intro b c _ _
    cases c <;> simp [charsLt]
  | cons p ps ih =>
    intro b c h1 h2
    cases c with
    | nil =>
      cases b with
      | nil => simp [charsLt] at h1
      | cons q qs => simp [charsLt] at h2
    | cons r rs =>
      cases b with
      | nil => simp [charsLt] at h1
      | cons q qs =>
        simp only [charsLt] at h1 h2 ⊢
        split_ifs at h1 h2 ⊢ <;>
          first
          | rfl
          | omega
          | exact ih h1 h2
          | exact absurd h1 (by decide)
          | exact absurd h2 (by decide)

theorem charsLt_eq_of_not : ∀ {a b : List Char},
    charsLt a b = false → charsLt b a = false → a = b := by
  intro a
  induction a with
  | nil =>
    intro b h1 _
    cases b with
    | nil => rfl
    | cons q qs => simp [charsLt] at h1
  | cons p ps ih =>
    intro b h1 h2
    cases b with
    | nil => simp [charsLt] at h2
    | cons q qs =>
      simp only [charsLt] at h1 h2
      split_ifs at h1 h2 with hc hd <;>
        first
        | exact absurd h1 (by decide)
        | exact absurd h2 (by decide)
        | exact congrArg₂ (· :: ·)
            (Char.eq_of_val_eq (UInt32.ext (by unfold Char.toNat at hc hd; omega)))
            (ih h1 h2)

theorem charsLt_asymm {a b : List Char} (h : charsLt a b = true) : charsLt b a = false := by
  by_contra hne
  have hba : charsLt b a = true := by
    cases hval : charsLt b a
    · exact absurd hval hne
    · rfl
  have : charsLt a a = true := charsLt_trans h hba
  rw [charsLt_irrefl a] at this
  exact absurd this (by decide)

/-- Characterization of the non-strict order induced by the ascending
`sortSize` comparator. -/
theorem sizeLe_true_iff (a b : FileStat) :
    sizeLe true a b ↔
      (a.Size < b.Size ∨ (a.Size = b.Size ∧ charsLt b.FullName.data a.FullName.data = false)) := by
  unfold sizeLe sizeLess goStrLt
  split_ifs with h1 h2
  · constructor
    · intro _
      exact Or.inl h1
    · intro _
      rfl
  · constructor
    · intro h
      exact absurd h (by decide)
    · intro h
      exfalso
      rcases h with h | ⟨h, _⟩ <;> omega
  · constructor
    · intro h
      exact Or.inr ⟨by omega, h⟩
    · intro h
      rcases h with h | ⟨_, h'⟩
      · exact absurd h (by omega)
      · exact h'

/-- Characterization of the non-strict order induced by the descending
`sortSize` comparator. -/
theorem sizeLe_false_iff (a b : FileStat) :
    sizeLe false a b ↔
      (b.Size < a.Size ∨ (a.Size = b.Size ∧ charsLt b.FullName.data a.FullName.data = false)) := by
  unfold sizeLe sizeLess goStrLt
  split_ifs with h1 h2
  · constructor
    · intro h
      exact absurd h (by decide)
    · intro h
      exfalso
      rcases h with h | ⟨h, _⟩ <;> omega
  · constructor
    · intro _
      exact Or.inl h2
    · intro _
      rfl
  · constructor
    · intro h
      exact Or.inr ⟨by omega, h⟩
    · intro h
      rcases h with h | ⟨_, h'⟩
      · exact absurd h (by omega)
      · exact h'

instance (ascending : Bool) : IsTotal FileStat (sizeLe ascending) := by
  constructor
  intro a b
  cases ascending
  · rcases lt_trichotomy a.Size b.Size with h | h | h
    · exact Or.inr ((sizeLe_false_iff b a).mpr (Or.inl h))
    · cases hc : charsLt b.FullName.data a.FullName.data
      · exact Or.inl ((sizeLe_false_iff a b).mpr (Or.inr ⟨h, hc⟩))
      · exact Or.inr ((sizeLe_false_iff b a).mpr (Or.inr ⟨h.symm, charsLt_asymm hc⟩))
    · exact Or.inl ((sizeLe_false_iff a b).mpr (Or.inl h))
  · rcases lt_trichotomy a.Size b.Size with h | h | h
    · exact Or.inl ((sizeLe_true_iff a b).mpr (Or.inl h))
    · cases hc : charsLt b.FullName.data a.FullName.data
      · exact Or.inl ((sizeLe_true_iff a b).mpr (Or.inr ⟨h, hc⟩))
      · exact Or.inr ((sizeLe_true_iff b a).mpr (Or.inr ⟨h.symm, charsLt_asymm hc⟩))
    · exact Or.inr ((sizeLe_true_iff b a).mpr (Or.inl h))

instance (ascending : Bool) : IsTrans FileStat (sizeLe ascending) := by
  constructor
  intro a b c hab hbc
  cases ascending
  · rcases (sizeLe_false_iff a b).mp hab with h1 | ⟨h1, h1'⟩ <;>
      rcases (sizeLe_false_iff b c).mp hbc with h2 | ⟨h2, h2'⟩ <;>
      refine (sizeLe_false_iff a c).mpr ?_
    · exact Or.inl (by omega)
    · exact Or.inl (by omega)
    · exact Or.inl (by omega)
    · exact Or.inr ⟨by omega, charsLt_le_trans h1' h2'⟩
  · rcases (sizeLe_true_iff a b).mp hab with h1 | ⟨h1, h1'⟩ <;>
      rcases (sizeLe_true_iff b c).mp hbc with h2 | ⟨h2, h2'⟩ <;>
      refine (sizeLe_true_iff a c).mpr ?_
    · exact Or.inl (by omega)
    · exact Or.inl (by omega)
    · exact Or.inl (by omega)
    · exact Or.inr ⟨by omega, charsLt_le_trans h1' h2'⟩

/-- Lists with equal images under a function that is injective on a
common superlist are equal. -/
theorem eq_of_map_eq_of_mem_inj {α β : Type} {f : α → β} {l : List α}
    (hinj : ∀ x ∈ l, ∀ y ∈ l, f x = f y → x = y) :
    ∀ {X Y : List α}, (∀ x ∈ X, x ∈ l) → (∀ y ∈ Y, y ∈ l) →
      X.map f = Y.map f → X = Y := by
  intro X
  induction X with
  | nil =>
    intro Y _ _ h
    cases Y with
    | nil => rfl
    | cons y ys => simp at h
  | cons x xs ih =>
    intro Y hX hY h
    cases Y with
    | nil => simp at h
    | cons y ys =>
      simp only [List.map_cons, List.cons.injEq] at h
      have hxy : x = y :=
        hinj x (hX x (by simp)) y (hY y (by simp)) h.1
      have : xs = ys :=
        ih (fun a ha => hX a (by simp [ha])) (fun a ha => hY a (by simp [ha])) h.2
      rw [hxy, this]

/-! ## Claim C2 -/

/-- Within either `sortSize` output, entries of equal size occur in
strictly name-ascending order under Go's bytewise string comparison,
provided the `fullName`s are pairwise distinct. -/
theorem sortSize_tie_groups_name_ascending (l : List FileStat)
    (hnd : (l.map FileStat.FullName).Nodup) (ascending : Bool) :
    (sortSize l ascending).Pairwise
      (fun x y => x.Size = y.Size → goStrLt x.FullName y.FullName = true) := by
  have hS : List.Pairwise (sizeLe ascending) (sortSize l ascending) :=
    List.sorted_insertionSort (sizeLe ascending) l
  have hN : List.Pairwise (fun x y : FileStat => x.FullName ≠ y.FullName)
      (sortSize l ascending) := by
    have hp : ((sortSize l ascending).map FileStat.FullName).Perm
        (l.map FileStat.FullName) :=
      (List.perm_insertionSort (sizeLe ascending) l).map FileStat.FullName
    exact List.pairwise_map.mp (hp.nodup_iff.mpr hnd)
  refine (hS.and hN).imp ?_
  intro x y hxy hsz
  rcases hxy with ⟨hle, hne⟩
  have h' : charsLt y.FullName.data x.FullName.data = false := by
    cases ascending
    · rcases (sizeLe_false_iff x y).mp hle with h | ⟨_, h'⟩
      · exact absurd hsz (by omega)
      · exact h'
    · rcases (sizeLe_true_iff x y).mp hle with h | ⟨_, h'⟩
      · exact absurd hsz (by omega)
      · exact h'
  cases hxy : charsLt x.FullName.data y.FullName.data with
  | false => exact absurd (String.ext (charsLt_eq_of_not hxy h')) hne
  | true => exact hxy

/-- C2: for every entry sequence (with pairwise-distinct `fullName`s,
the spec's uniqueness invariant), sorting by size ascending and
descending produce exactly reversed orders except within groups of
equal size: the sequence of sizes is exactly reversed, the subsequence
of entries of any fixed size is identical in both directions (tie
groups are not reversed), and in both directions entries of equal size
are ordered by `fullName` ascending (lexicographic on raw bytes). -/
theorem sortSize_desc_reverses_asc_except_ties (l : List FileStat)
    (hnd : (l.map FileStat.FullName).Nodup) :
    ((sortSize l false).map FileStat.Size = ((sortSize l true).map FileStat.Size).reverse) ∧
    (∀ s : Int, (sortSize l false).filter (fun e => e.Size == s) =
      (sortSize l true).filter (fun e => e.Size == s)) ∧
    (sortSize l true).Pairwise
      (fun x y => x.Size = y.Size → goStrLt x.FullName y.FullName = true) ∧
    (sortSize l false).Pairwise
      (fun x y => x.Size = y.Size → goStrLt x.FullName y.FullName = true) := by
  have hD : List.Pairwise (sizeLe false) (sortSize l false) :=
    List.sorted_insertionSort (sizeLe false) l
  have hA : List.Pairwise (sizeLe true) (sortSize l true) :=
    List.sorted_insertionSort (sizeLe true) l
  have pD : (sortSize l false).Perm l := List.perm_insertionSort (sizeLe false) l
  have pA : (sortSize l true).Perm l := List.perm_insertionSort (sizeLe true) l
  refine ⟨?_, ?_, sortSize_tie_groups_name_ascending l hnd true,
    sortSize_tie_groups_name_ascending l hnd false⟩
  · haveI : IsAntisymm Int (fun x y => y ≤ x) := ⟨fun a b h1 h2 => le_antisymm h2 h1⟩
    refine List.eq_of_perm_of_sorted (r := fun x y : Int => y ≤ x) ?_ ?_ ?_
    · exact ((pD.map FileStat.Size).trans (pA.map FileStat.Size).symm).trans
        (List.reverse_perm ((sortSize l true).map FileStat.Size)).symm
    · exact List.pairwise_map.mpr (hD.imp (fun {x y} h => by
        rcases (sizeLe_false_iff x y).mp h with h | ⟨h, _⟩ <;> omega))
    · exact List.pairwise_reverse.mpr (List.pairwise_map.mpr (hA.imp (fun {x y} h => by
        rcases (sizeLe_true_iff x y).mp h with h | ⟨h, _⟩ <;> omega)))
  · intro s
    have hsubD : ∀ x ∈ (sortSize l false).filter (fun e => e.Size == s), x ∈ l :=
      fun x hx => pD.subset (List.mem_of_mem_filter hx)
    have hsubA : ∀ x ∈ (sortSize l true).filter (fun e => e.Size == s), x ∈ l :=
      fun x hx => pA.subset (List.mem_of_mem_filter hx)
    have hperm : ((sortSize l false).filter (fun e => e.Size == s)).Perm
        ((sortSize l true).filter (fun e => e.Size == s)) :=
      (pD.trans pA.symm).filter _
    have hDn : List.Pairwise (fun x y : FileStat => charsLt y.FullName.data x.FullName.data = false)
        ((sortSize l false).filter (fun e => e.Size == s)) := by
      refine List.Pairwise.imp_of_mem ?_ (hD.sublist (List.filter_sublist _))
      intro x y hx hy hxy
      have hxs : x.Size = s := by simpa using (List.mem_filter.mp hx).2
      have hys : y.Size = s := by simpa using (List.mem_filter.mp hy).2
      rcases (sizeLe_false_iff x y).mp hxy with h | ⟨_, h'⟩
      · exact absurd h (by omega)
      · exact h'
    have hAn : List.Pairwise (fun x y : FileStat => charsLt y.FullName.data x.FullName.data = false)
        ((sortSize l true).filter (fun e => e.Size == s)) := by
      refine List.Pairwise.imp_of_mem ?_ (hA.sublist (List.filter_sublist _))
      intro x y hx hy hxy
      have hxs : x.Size = s := by simpa using (List.mem_filter.mp hx).2
      have hys : y.Size = s := by simpa using (List.mem_filter.mp hy).2
      rcases (sizeLe_true_iff x y).mp hxy with h | ⟨_, h'⟩
      · exact absurd h (by omega)
      · exact h'
    have hmap : ((sortSize l false).filter (fun e => e.Size == s)).map FileStat.FullName
        = ((sortSize l true).filter (fun e => e.Size == s)).map FileStat.FullName := by
      haveI : IsAntisymm String (fun x y => charsLt y.data x.data = false) :=
        ⟨fun x y h1 h2 => String.ext (charsLt_eq_of_not h2 h1)⟩
      exact List.eq_of_perm_of_sorted (r := fun x y : String => charsLt y.data x.data = false)
        (hperm.map _) (List.pairwise_map.mpr hDn) (List.pairwise_map.mpr hAn)
    exact eq_of_map_eq_of_mem_inj
      (fun x hx y hy h => List.inj_on_of_nodup_map hnd hx hy h) hsubD hsubA hmap

/-- Witness for C2 at a list with a size tie: the size sequence is
exactly reversed, the tie group of size 3 is *not* reversed, and the
descending output keeps equal sizes name-ascending. -/
theorem sortSize_desc_reverses_asc_except_ties_witness :
    (sortSize [⟨"a", 5, 0, "F"⟩, ⟨"b", 3, 0, "F"⟩, ⟨"c", 3, 0, "F"⟩] false).map FileStat.Size
      = ((sortSize [⟨"a", 5, 0, "F"⟩, ⟨"b", 3, 0, "F"⟩, ⟨"c", 3, 0, "F"⟩] true).map FileStat.Size).reverse
    ∧ (sortSize [⟨"a", 5, 0, "F"⟩, ⟨"b", 3, 0, "F"⟩, ⟨"c", 3, 0, "F"⟩] false).filter
        (fun e => e.Size == 3)
      = (sortSize [⟨"a", 5, 0, "F"⟩, ⟨"b", 3, 0, "F"⟩, ⟨"c", 3, 0, "F"⟩] true).filter
        (fun e => e.Size == 3)
    ∧ (sortSize [⟨"a", 5, 0, "F"⟩, ⟨"b", 3, 0, "F"⟩, ⟨"c", 3, 0, "F"⟩] false).Pairwise
        (fun x y => x.Size = y.Size → goStrLt x.FullName y.FullName = true) :=
  ⟨(sortSize_desc_reverses_asc_except_ties
      [⟨"a", 5, 0, "F"⟩, ⟨"b", 3, 0, "F"⟩, ⟨"c", 3, 0, "F"⟩] (by decide)).1,
   (sortSize_desc_reverses_asc_except_ties
      [⟨"a", 5, 0, "F"⟩, ⟨"b", 3, 0, "F"⟩, ⟨"c", 3, 0, "F"⟩] (by decide)).2.1 3,
   (sortSize_desc_reverses_asc_except_ties
      [⟨"a", 5, 0, "F"⟩, ⟨"b", 3, 0, "F"⟩, ⟨"c", 3, 0, "F"⟩] (by decide)).2.2.2⟩

/-! ## Claim C3 -/

/-- C3: in `GetFileInfo`'s per-entry processing, the size-range checks
behave exactly as the spec's size filter: they apply only to entries of
type File (`D`/`L`/`?` entries are never rejected by them, whatever the
bounds), bounds are inclusive, and a zero/unset bound disables the
corresponding check — formally, processing an entry under bounds
`(sizeSmaller, sizeLarger)` equals processing it with the size filter
disabled (`0, 0`) whenever the spec-side size predicate accepts it, and
rejects it otherwise. -/
theorem keepOne_size_checks_refine_spec
    (exm inm : Option (String → Bool)) (newer older : Option Int)
    (excludeDot : Bool) (sizeSmaller sizeLarger : Int)
    (fname : String) (f : StatInfo) :
    keepOne exm inm newer older excludeDot sizeSmaller sizeLarger fname (some f)
      = if sizeFilterSpec sizeSmaller sizeLarger f.size (ftypeOf f) then
          keepOne exm inm newer older excludeDot 0 0 fname (some f)
        else none := by
  have h00 : decide ((0 : Int) > 0) = false := rfl
  unfold keepOne
  by_cases hftp : ftypeOf f = "F" <;>
    simp [sizeFilterSpec, hftp, h00] <;>
    (try split_ifs) <;>
    first | rfl | omega

/-! ## Claim C4 -/

/-- The render loop's fold, characterised: the accumulated totals are
the sum of the sizes of the File entries and the per-type counts. -/
theorem totalsCounters_foldl (es : List FileStat) :
    ∀ acc : Int × Int × Int × Int,
      es.foldl (fun acc e =>
        (acc.1 + (if e.FileType == "F" then e.Size else 0),
         acc.2.1 + (if e.FileType == "F" then 1 else 0),
         acc.2.2.1 + (if e.FileType == "D" then 1 else 0),
         acc.2.2.2 + (if e.FileType == "L" then 1 else 0))) acc
      = (acc.1 + ((es.filter (fun e => e.FileType == "F")).map FileStat.Size).sum,
         acc.2.1 + ((es.filter (fun e => e.FileType == "F")).length : Int),
         acc.2.2.1 + ((es.filter (fun e => e.FileType == "D")).length : Int),
         acc.2.2.2 + ((es.filter (fun e => e.FileType == "L")).length : Int)) := by
  induction es with
  | nil =>
    intro acc
    simp
  | cons e es ih =>
    intro acc
    simp only [List.foldl_cons, ih, List.filter_cons]
    by_cases hF : (e.FileType == "F") = true <;>
      by_cases hD : (e.FileType == "D") = true <;>
      by_cases hL : (e.FileType == "L") = true <;>
      simp [hF, hD, hL, Prod.ext_iff] <;>
      push_cast <;>
      omega

/-- C4: on files of sizes 10, 20, 30 plus two directories, the
aggregator yields total size 60, file count 3, directory count 2,
average file size 20 and average files per directory 1; in general the
accumulated totals are the File-size sum and per-type counts, average
file size is `totalSize / fileCount` with truncating integer division
(zero when there are no files), and average files per directory is
`fileCount / dirCount` with truncating integer division (zero when
there are no directories). -/
theorem totals_aggregation :
    (totalsCounters
        [⟨"f1", 10, 0, "F"⟩, ⟨"f2", 20, 0, "F"⟩, ⟨"f3", 30, 0, "F"⟩,
         ⟨"d1", 4096, 0, "D"⟩, ⟨"d2", 4096, 0, "D"⟩] = (60, 3, 2, 0)
      ∧ averageFileSize 60 3 = 20 ∧ averageFilesPerDir 3 2 = 1)
    ∧ (∀ es : List FileStat,
        totalsCounters es =
          (((es.filter (fun e => e.FileType == "F")).map FileStat.Size).sum,
           ((es.filter (fun e => e.FileType == "F")).length : Int),
           ((es.filter (fun e => e.FileType == "D")).length : Int),
           ((es.filter (fun e => e.FileType == "L")).length : Int)))
    ∧ (∀ ts fc : Int, 0 < fc → averageFileSize ts fc = ts.tdiv fc)
    ∧ (∀ ts fc : Int, fc ≤ 0 → averageFileSize ts fc = 0)
    ∧ (∀ fc dc : Int, 0 < fc → 0 < dc → averageFilesPerDir fc dc = fc.tdiv dc)
    ∧ (∀ fc dc : Int, dc ≤ 0 → averageFilesPerDir fc dc = 0) := by
  refine ⟨by decide, ?_, ?_, ?_, ?_, ?_⟩
  · intro es
    have := totalsCounters_foldl es (0, 0, 0, 0)
    simpa [totalsCounters] using this
  · intro ts fc h
    simp [averageFileSize, h]
  · intro ts fc h
    simp [averageFileSize]
    omega
  · intro fc dc h1 h2
    simp [averageFilesPerDir, h1, h2]
  · intro fc dc h
    simp [averageFilesPerDir]
    omega

/-- Witness for C4's universally quantified parts at the demo inputs. -/
theorem totals_aggregation_witness :
    totalsCounters [⟨"f1", 10, 0, "F"⟩, ⟨"d1", 4096, 0, "D"⟩]
      = ((([⟨"f1", 10, 0, "F"⟩, ⟨"d1", (4096 : Int), 0, "D"⟩].filter
            (fun e => e.FileType == "F")).map FileStat.Size).sum,
         (([(⟨"f1", 10, 0, "F"⟩ : FileStat), ⟨"d1", 4096, 0, "D"⟩].filter
            (fun e => e.FileType == "F")).length : Int),
         (([(⟨"f1", 10, 0, "F"⟩ : FileStat), ⟨"d1", 4096, 0, "D"⟩].filter
            (fun e => e.FileType == "D")).length : Int),
         (([(⟨"f1", 10, 0, "F"⟩ : FileStat), ⟨"d1", 4096, 0, "D"⟩].filter
            (fun e => e.FileType == "L")).length : Int))
    ∧ averageFileSize 7 2 = 3 ∧ averageFileSize 7 0 = 0
    ∧ averageFilesPerDir 7 2 = 3 ∧ averageFilesPerDir 7 0 = 0 :=
  ⟨totals_aggregation.2.1 _,
   totals_aggregation.2.2.1 7 2 (by decide),
   totals_aggregation.2.2.2.1 7 0 (by decide),
   totals_aggregation.2.2.2.2.1 7 2 (by decide) (by decide),
   totals_aggregation.2.2.2.2.2 7 0 (by decide)⟩

/-! ## Claim C5 -/

/-- C5: with an empty final row sequence, the default tabular format
emits nothing at all (no empty table frame), while CSV still emits its
header line, HTML its document skeleton, and JSON its document (Go
marshals the nil row slice as `null`). -/
theorem empty_rows_rendering :
    (∀ (tableRender : List (List String) → String) (shorten : String → Int → String)
       (termWidth : Int) (longFileNames : Bool) (longWidth : Int),
       defaultRender tableRender shorten termWidth longFileNames longWidth [] = "")
    ∧ csvRender [] = "\"Mod Time\",\"Size\",\"Type\",\"Name\"\n"
    ∧ htmlRender [] =
        "<!DOCTYPE html>\n<html>\n<body>\n<table border=\x271\x27 cellpadding=\x273\x27 cellspacing=\x273\x27>\n<th>Mod Time</th><th>Size</th><th>Type</th><th>Name</th>\n</table>\n</body>\n</html>\n"
    ∧ jsonRender [] = some "null\n" := by
  refine ⟨fun _ _ _ _ _ => rfl, ?_, ?_, ?_⟩ <;> decide

/-! ## Claim C9 -/

/-- C9: with MiB conversion requested, the rendered per-entry size and
the totals size both equal the byte count divided by 1048576 with
truncating integer division, and the division happens before the
optional comma insertion; concretely, 2097151 bytes (1 byte under
2 MiB) renders as "1" (truncation, no rounding), and 3145728999 bytes
renders as "3,000" with commas (grouping applied to the MiB quotient),
versus "3,145,728,999" without MiB conversion. -/
theorem mib_division_before_commas :
    (∀ (size : Int) (addCommas : Bool),
      sizeCell true addCommas size =
        (if addCommas then RenderIntegerCommas (size.tdiv 1048576)
         else toString (size.tdiv 1048576)))
    ∧ (∀ (totalFileSize : Int) (addCommas : Bool),
      totalsSizeCell true addCommas totalFileSize =
        (if addCommas then RenderIntegerCommas (totalFileSize.tdiv 1048576)
         else toString (totalFileSize.tdiv 1048576)))
    ∧ sizeCell true false 2097151 = "1"
    ∧ sizeCell true true 3145728999 = "3,000"
    ∧ sizeCell false true 3145728999 = "3,145,728,999"
    ∧ totalsSizeCell true true 3145728999 = "3,000" := by
  refine ⟨fun _ _ => rfl, fun _ _ => rfl, ?_, ?_, ?_, ?_⟩ <;> decide

/-! ## Claim C10 -/

/-- C10: `shortenFileName` returns a slice of twice the input length
whose first half is nil (empty) rows — `make([][]string, n)` already
holds `n` nil rows and the loop appends after them — so in the default
tabular format the row sequence handed to the table writer is one empty
row per data row followed by the data rows (with their name column
shortened). -/
theorem shortenFileName_prepends_empty_rows
    (shorten : String → Int → String) (maxWidth : Int)
    (rows : List (List String))
    (tableRender : List (List String) → String)
    (termWidth longWidth : Int) (longFileNames : Bool) :
    (shortenFileName shorten rows maxWidth).length = 2 * rows.length
    ∧ (shortenFileName shorten rows maxWidth).take rows.length
        = List.replicate rows.length []
    ∧ (shortenFileName shorten rows maxWidth).drop rows.length
        = rows.map (fun row => row.set 3 (shorten (row.getD 3 "") maxWidth))
    ∧ (rows ≠ [] →
        defaultRender tableRender shorten termWidth longFileNames longWidth rows
          = tableRender (List.replicate rows.length [] ++
              rows.map (fun row => row.set 3
                (shorten (row.getD 3 "")
                  (defaultMaxWidth termWidth longFileNames longWidth))))) := by
  refine ⟨?_, ?_, ?_, ?_⟩
  · simp [shortenFileName]
    omega
  · rw [shortenFileName, List.take_left' (by simp)]
  · rw [shortenFileName, List.drop_left' (by simp)]
  · intro hne
    rw [defaultRender, if_pos (by simpa using List.length_pos.mpr hne)]
    rfl

/-- Witness for C10 at a one-row table. -/
theorem shortenFileName_prepends_empty_rows_witness :
    (shortenFileName (fun s _ => s) [["t", "1", "F", "name"]] 80).length = 2 * 1
    ∧ defaultRender (fun rs => String.intercalate "|" (rs.map (String.intercalate ",")))
        (fun s _ => s) 100 false 0 [["t", "1", "F", "name"]]
      = (fun (rs : List (List String)) => String.intercalate "|" (rs.map (String.intercalate ",")))
          (List.replicate 1 [] ++
            [["t", "1", "F", "name"]].map (fun row => row.set 3
              ((fun (s : String) (_ : Int) => s) (row.getD 3 "") (defaultMaxWidth 100 false 0)))) :=
  ⟨(shortenFileName_prepends_empty_rows (fun s _ => s) 80 [["t", "1", "F", "name"]]
      (fun rs => String.intercalate "|" (rs.map (String.intercalate ","))) 100 0 false).1,
   (shortenFileName_prepends_empty_rows (fun s _ => s)
      (defaultMaxWidth 100 false 0) [["t", "1", "F", "name"]]
      (fun rs => String.intercalate "|" (rs.map (String.intercalate ","))) 100 0 false).2.2.2
      (by decide)⟩

/-! ## Claims C7 and C8: validation exits -/

/-- Every failing path of the `-do`/`-dn` range check exits with 2. -/
theorem dateRangeCheck_none_or_exit2 (a : Args) :
    dateRangeCheck a = none ∨ dateRangeCheck a = some 2 := by
  unfold dateRangeCheck
  split_ifs
  · cases goParseDate8 a.dateOlder with
    | none => simp
    | some od =>
      cases goParseDate8 a.dateNewer with
      | none => simp
      | some nd =>
        simp only []
        split_ifs <;> simp
  · simp

/-- Every failing path in `ValidateArgs` calls `os.Exit(2)`. -/
theorem validateArgs_none_or_exit2 (a : Args) :
    ValidateArgs a = none ∨ ValidateArgs a = some 2 := by
  unfold ValidateArgs
  split_ifs <;> try simp
  all_goals
    rcases dateRangeCheck_none_or_exit2 a with h | h <;> rw [h] <;> simp

/-- C7: whenever two sort keys are selected, or totals are combined
with a structured output format (CSV/HTML/JSON), or truncation-disable
(`-long`) is combined with an explicit truncation width
(`-longwidth`), `ValidateArgs` terminates the process with exit code 2,
and since `main` validates before producing any output, stdout carries
zero bytes. -/
theorem exclusive_flag_combos_fatal (a : Args) (pipelineOut : String)
    (h : 2 ≤ sortArgCount a
      ∨ (a.argsTotals = true ∧
          (a.argsOutputCSV = true ∨ a.argsOutputHTML = true ∨ a.argsOutputJSON = true))
      ∨ (a.longFileNames = true ∧ 0 < a.longWidth)) :
    ValidateArgs a = some 2 ∧ mainAfterValidate a pipelineOut = ("", some 2) := by
  have hne : ValidateArgs a ≠ none := by
    intro hn
    unfold ValidateArgs at hn
    by_cases h1 : sortArgCount a > 1
    · rw [if_pos h1] at hn
      simp at hn
    · rw [if_neg h1] at hn
      by_cases h2 : onlyArgCount a > 1
      · rw [if_pos h2] at hn
        simp at hn
      · rw [if_neg h2] at hn
        by_cases h3 : outputArgCount a > 1
        · rw [if_pos h3] at hn
          simp at hn
        · rw [if_neg h3] at hn
          by_cases h4 : (a.argsTotals && (a.argsOutputCSV || a.argsOutputHTML || a.argsOutputJSON)) = true
          · rw [if_pos h4] at hn
            simp at hn
          · rw [if_neg h4] at hn
            cases hdr : dateRangeCheck a with
            | some c =>
              rw [hdr] at hn
              simp at hn
            | none =>
              rw [hdr] at hn
              simp only [] at hn
              by_cases h5 : (decide (a.sizeSmaller > 0) && decide (a.sizeSmaller < a.sizeLarger)) = true
              · rw [if_pos h5] at hn
                simp at hn
              · rw [if_neg h5] at hn
                by_cases h6 : (a.longFileNames && decide (a.longWidth > 0)) = true
                · rw [if_pos h6] at hn
                  simp at hn
                · rcases h with hcase | ⟨ht, ho⟩ | ⟨hl, hw⟩
                  · exact h1 (by omega)
                  · refine h4 ?_
                    rw [ht]
                    rcases ho with h' | h' | h' <;> simp [h']
                  · refine h6 ?_
                    rw [hl]
                    simp [hw]
  rcases validateArgs_none_or_exit2 a with h' | h'
  · exact absurd h' hne
  · exact ⟨h', by simp [mainAfterValidate, h']⟩

/-- Witness for C7: `-ss -sS` together give exit code 2 and an empty
stdout. -/
theorem exclusive_flag_combos_fatal_witness :
    ValidateArgs
        ⟨true, true, false, false, false, false, false, false, false, false, false,
         false, false, false, false, "", "", 0, 0, false, 0⟩ = some 2
    ∧ mainAfterValidate
        ⟨true, true, false, false, false, false, false, false, false, false, false,
         false, false, false, false, "", "", 0, 0, false, 0⟩ "data" = ("", some 2) :=
  exclusive_flag_combos_fatal
    ⟨true, true, false, false, false, false, false, false, false, false, false,
     false, false, false, false, "", "", 0, 0, false, 0⟩ "data"
    (Or.inl (by decide))

/-- C8 counterexample: the exit codes are *not* distinct per error
condition.  Two different configuration errors — two sort flags
(`-ss -sS`) and an inverted size range (`-szs 5 -szl 10`) — both exit
with code 2, and two further conditions — an empty input list and an
exclude regex that fails to compile — both exit with code 3. -/
theorem exit_codes_not_distinct_counterexample :
    ValidateArgs
        ⟨true, true, false, false, false, false, false, false, false, false, false,
         false, false, false, false, "", "", 0, 0, false, 0⟩ = some 2
    ∧ ValidateArgs
        ⟨false, false, false, false, false, false, false, false, false, false, false,
         false, false, false, false, "", "", 5, 10, false, 0⟩ = some 2
    ∧ (⟨true, true, false, false, false, false, false, false, false, false, false,
         false, false, false, false, "", "", 0, 0, false, 0⟩ : Args)
      ≠ ⟨false, false, false, false, false, false, false, false, false, false, false,
         false, false, false, false, "", "", 5, 10, false, 0⟩
    ∧ inputListCheck [] = some 3
    ∧ GetFileInfo (fun _ => none) 0 [] false false "(" "" "" "" 0 0 = .exit 3 := by
  refine ⟨?_, ?_, ?_, ?_, ?_⟩ <;> decide

/-- C8 (amended): each configuration-error condition is fatal with a
non-zero exit code, reported before any data output; however the codes
distinguish conditions only coarsely — every `ValidateArgs` failure
(flag conflicts, inverted date or size range, bad date in the combined
range check) exits 2, a bad exclude regex exits 3 (as do an empty input
list and zero glob matches), a bad include regex exits 4, and a bad
date in the filter path exits 5. -/
theorem config_errors_fatal_nonzero :
    (∀ a : Args, ValidateArgs a = none ∨ ValidateArgs a = some 2)
    ∧ (∀ (a : Args) (pipelineOut : String), ValidateArgs a = some 2 →
        mainAfterValidate a pipelineOut = ("", some 2))
    ∧ (∀ (compile : String → Option (String → Bool)) (o : Int)
         (files : List (String × Option StatInfo)) (quiet ed : Bool)
         (exRE inRE dn dO : String) (ss sl : Int),
        exRE.length > 0 → compile exRE = none →
        GetFileInfo compile o files quiet ed exRE inRE dn dO ss sl = .exit 3)
    ∧ (∀ (compile : String → Option (String → Bool)) (o : Int)
         (files : List (String × Option StatInfo)) (quiet ed : Bool)
         (inRE dn dO : String) (ss sl : Int),
        inRE.length > 0 → compile inRE = none →
        GetFileInfo compile o files quiet ed "" inRE dn dO ss sl = .exit 4)
    ∧ (∀ (compile : String → Option (String → Bool)) (o : Int)
         (files : List (String × Option StatInfo)) (quiet ed : Bool)
         (dn dO : String) (ss sl : Int),
        dn.length > 0 → goParseDate8 dn = none →
        GetFileInfo compile o files quiet ed "" "" dn dO ss sl = .exit 5)
    ∧ (∀ (compile : String → Option (String → Bool)) (o : Int)
         (files : List (String × Option StatInfo)) (quiet ed : Bool)
         (dO : String) (ss sl : Int),
        dO.length > 0 → goParseDate8 dO = none →
        GetFileInfo compile o files quiet ed "" "" "" dO ss sl = .exit 5)
    ∧ (∀ names : List String, names = [] →
        inputListCheck names = some 3 ∧ globMatchCheck names = some 3)
    ∧ (∀ (c : Nat) (render : List FileStat → String),
        pipelineStdout (.exit c) render = ("", some c)) := by
  refine ⟨validateArgs_none_or_exit2, ?_, ?_, ?_, ?_, ?_, ?_, ?_⟩
  · intro a pipelineOut h
    simp [mainAfterValidate, h]
  · intro compile o files quiet ed exRE inRE dn dO ss sl hlen hc
    unfold GetFileInfo
    rw [if_pos hlen, hc]
  · intro compile o files quiet ed inRE dn dO ss sl hlen hc
    unfold GetFileInfo
    rw [if_pos hlen, hc]
    rfl
  · intro compile o files quiet ed dn dO ss sl hlen hp
    have hr : roundToLocalTime o wantNewer dn = .exit 5 := by
      unfold roundToLocalTime
      rw [hp]
    unfold GetFileInfo
    rw [if_pos hlen, hr]
    rfl
  · intro compile o files quiet ed dO ss sl hlen hp
    have hr : roundToLocalTime o wantOlder dO = .exit 5 := by
      unfold roundToLocalTime
      rw [hp]
    unfold GetFileInfo
    rw [if_pos hlen, hr]
    rfl
  · intro names h
    subst h
    exact ⟨rfl, rfl⟩
  · intro c render
    rfl

/-- Witness for C8 (amended) at concrete error conditions. -/
theorem config_errors_fatal_nonzero_witness :
    mainAfterValidate
        ⟨true, true, false, false, false, false, false, false, false, false, false,
         false, false, false, false, "", "", 0, 0, false, 0⟩ "data" = ("", some 2)
    ∧ GetFileInfo (fun _ => none) 0 [] true false "[" "" "" "" 0 0 = .exit 3
    ∧ GetFileInfo (fun _ => none) 0 [] true false "" "[" "" "" 0 0 = .exit 4
    ∧ GetFileInfo (fun _ => some (fun _ => true)) 0 [] true false "" "" "2019" "" 0 0 = .exit 5
    ∧ GetFileInfo (fun _ => some (fun _ => true)) 0 [] true false "" "" "" "20190231" 0 0 = .exit 5
    ∧ inputListCheck [] = some 3 ∧ globMatchCheck [] = some 3
    ∧ pipelineStdout (.exit 3) (fun _ => "table") = ("", some 3) :=
  ⟨config_errors_fatal_nonzero.2.1 _ "data" (by decide),
   config_errors_fatal_nonzero.2.2.1 (fun _ => none) 0 [] true false "[" "" "" "" 0 0
     (by decide) rfl,
   config_errors_fatal_nonzero.2.2.2.1 (fun _ => none) 0 [] true false "[" "" "" 0 0
     (by decide) rfl,
   config_errors_fatal_nonzero.2.2.2.2.1 (fun _ => some (fun _ => true)) 0 [] true false
     "2019" "" 0 0 (by decide) (by decide),
   config_errors_fatal_nonzero.2.2.2.2.2.1 (fun _ => some (fun _ => true)) 0 [] true false
     "20190231" 0 0 (by decide) (by decide),
   (config_errors_fatal_nonzero.2.2.2.2.2.2.1 [] rfl).1,
   (config_errors_fatal_nonzero.2.2.2.2.2.2.1 [] rfl).2,
   config_errors_fatal_nonzero.2.2.2.2.2.2.2 3 (fun _ => "table")⟩

/-! ## Claim C1 -/

/-- C1 counterexample: under a UTC local zone (offset 0), `GetFileInfo`
with `dateOlder = "20190325"` does *not* reject an entry whose
modification time is 2019-03-26 00:00:01 — the computed bound is the
end of March *26*, because `roundToLocalTime` lands on the parsed day
itself (not the previous day) when the local offset is not negative,
and then still adds 24 hours.  This refutes the claim that the `older`
bound cuts off at the end of the named calendar day. -/
theorem older_filter_utc_counterexample :
    GetFileInfo (fun _ => none) 0
      [("b.txt", some ⟨100, localNs 0 2019 3 26 0 0 1 0, true, false, false⟩)]
      false false "" "" "" "20190325" 0 0
      = .ok [⟨"b.txt", 100, localNs 0 2019 3 26 0 0 1 0, "F"⟩] := by
  decide

/-- C1 (amended): when the local zone lies strictly west of UTC
(negative fixed offset, e.g. the EDT zone of the code's own doc
comment), the `older = 20190325` filter behaves as claimed: an entry
modified 2019-03-25 23:59:59 local passes and an entry modified
2019-03-26 00:00:01 local is rejected. -/
theorem older_filter_cutoff_west_of_utc
    (compile : String → Option (String → Bool)) (o : Int)
    (h1 : -86400 < o) (h2 : o < 0) :
    GetFileInfo compile o
      [("a.txt", some ⟨100, localNs o 2019 3 25 23 59 59 0, true, false, false⟩),
       ("b.txt", some ⟨100, localNs o 2019 3 26 0 0 1 0, true, false, false⟩)]
      false false "" "" "" "20190325" 0 0
      = .ok [⟨"a.txt", 100, localNs o 2019 3 25 23 59 59 0, "F"⟩] := by
  have h00 : decide ((0 : Int) > 0) = false := rfl
  have hD25 : daysFromCivil 2019 3 25 = 17980 := by decide
  have hD24 : daysFromCivil 2019 3 24 = 17979 := by decide
  have hD26 : daysFromCivil 2019 3 26 = 17981 := by decide
  have hciv : civilFromDays 17979 = (2019, 3, 24) := by decide
  have hloc : (daysFromCivil 2019 3 25 * 86400 + o) / 86400 = 17979 := by
    rw [hD25]
    omega
  have ht1 : localNs o 2019 3 25 23 59 59 0 = (17980 * 86400 + 86399 - o) * 1000000000 := by
    unfold localNs
    rw [hD25]
    ring
  have ht2 : localNs o 2019 3 26 0 0 1 0 = (17981 * 86400 + 1 - o) * 1000000000 := by
    unfold localNs
    rw [hD26]
    ring
  set B : Int := (17979 * 86400 + 86399 - o) * 1000000000 + 999999999 + 86400 * 1000000000
    with hB
  have hbound : roundToLocalTime o wantOlder "20190325" = .ok B := by
    unfold roundToLocalTime
    rw [show goParseDate8 "20190325" = some (2019, 3, 25) from by decide]
    simp only [hloc, hciv, hD24, hB]
    rfl
  have hc1 : decide (B < localNs o 2019 3 25 23 59 59 0) = false := by
    rw [ht1]
    apply decide_eq_false
    omega
  have hc2 : decide (B < localNs o 2019 3 26 0 0 1 0) = true := by
    rw [ht2]
    apply decide_eq_true
    omega
  have hk1 : keepOne none none none (some B) false 0 0 "a.txt"
      (some ⟨100, localNs o 2019 3 25 23 59 59 0, true, false, false⟩)
      = some ⟨"a.txt", 100, localNs o 2019 3 25 23 59 59 0, "F"⟩ := by
    unfold keepOne
    simp [hc1, ftypeOf, h00]
  have hk2 : keepOne none none none (some B) false 0 0 "b.txt"
      (some ⟨100, localNs o 2019 3 26 0 0 1 0, true, false, false⟩) = none := by
    unfold keepOne
    simp [hc2]
  unfold GetFileInfo
  rw [hbound]
  simp [List.filterMap_cons, hk1, hk2,
    show (0 : Nat) < ("20190325" : String).length from by decide]

/-- Witness for C1 (amended) at the EDT offset of the code's doc
comment (UTC-4). -/
theorem older_filter_cutoff_west_of_utc_witness :
    GetFileInfo (fun _ => none) (-14400)
      [("a.txt", some ⟨100, localNs (-14400) 2019 3 25 23 59 59 0, true, false, false⟩),
       ("b.txt", some ⟨100, localNs (-14400) 2019 3 26 0 0 1 0, true, false, false⟩)]
      false false "" "" "" "20190325" 0 0
      = .ok [⟨"a.txt", 100, localNs (-14400) 2019 3 25 23 59 59 0, "F"⟩] :=
  older_filter_cutoff_west_of_utc (fun _ => none) (-14400) (by decide) (by decide)

/-! ## Claim C6 -/

/-- C6: the JSON output is the pretty-printed (four-space indented)
array of the *display rows* — each element an array of the formatted
string columns, never the typed entry values.  Generally, whenever
every row's mod-time cell re-parses (which the 19-byte formatting
guarantees), the JSON branch prints exactly the indented marshalling of
`allRows`; concretely, a two-entry render yields nested string arrays
(sizes as quoted strings such as `"1,234"`, including the inserted
commas), and differs from what a typed marshalling of the same entries
(objects with numeric `size`) would produce. -/
theorem json_array_of_formatted_strings :
    (∀ rows : List (List String),
      rows.all (fun r => goParseOk19 (r.getD 0 "")) = true →
      jsonRender rows = some (marshalRows rows ++ "\n"))
    ∧ (∀ (tableRender : List (List String) → String) (shorten : String → Int → String)
         (termWidth : Int),
        RenderAllEntries tableRender shorten termWidth (-14400)
          [⟨"a/b.txt", 1234, localNs (-14400) 2019 3 25 13 14 15 0, "F"⟩,
           ⟨"c&d", 7, localNs (-14400) 2019 3 26 8 0 0 0, "D"⟩]
          true false false false false false false false true false 0
        = some "[\n    [\n        \"2019-03-25 13:14:15\",\n        \"1,234\",\n        \"F\",\n        \"a/b.txt\"\n    ],\n    [\n        \"2019-03-26 08:00:00\",\n        \"7\",\n        \"D\",\n        \"c\\u0026d\"\n    ]\n]\n")
    ∧ "[\n    [\n        \"2019-03-25 13:14:15\",\n        \"1,234\",\n        \"F\",\n        \"a/b.txt\"\n    ],\n    [\n        \"2019-03-26 08:00:00\",\n        \"7\",\n        \"D\",\n        \"c\\u0026d\"\n    ]\n]\n"
      ≠ typedMarshal (-14400)
          [⟨"a/b.txt", 1234, localNs (-14400) 2019 3 25 13 14 15 0, "F"⟩,
           ⟨"c&d", 7, localNs (-14400) 2019 3 26 8 0 0 0, "D"⟩] ++ "\n" := by
  refine ⟨?_, ?_, ?_⟩
  · intro rows h
    unfold jsonRender
    rw [if_pos h]
  · intro tableRender shorten termWidth
    rfl
  · decide

/-- Witness for C6's general conjunct at a concrete row. -/
theorem json_array_of_formatted_strings_witness :
    jsonRender [["2019-03-25 13:14:15", "5", "F", "x"]]
      = some (marshalRows [["2019-03-25 13:14:15", "5", "F", "x"]] ++ "\n") :=
  json_array_of_formatted_strings.1 [["2019-03-25 13:14:15", "5", "F", "x"]] (by decide)

end Fstat
